import Mathlib

/-!
Verification development for the browser-automation backend
(`backend/src/models/ws.rs`, `backend/src/state.rs`, `backend/src/routes.rs`,
`backend/src/handler/agent_handler.rs`, `backend-rig/src/llm/provider.rs`).

The Rust data model and operations are shallowly embedded: JSON values are an
inductive type, the serde-derived codec of `WsMessage` is reproduced as
`encode_ws_message` / `decode_ws_message`, the two registries of `AppState`
(`active_connections`, `pending_actions`) become association lists inside a
`World` record, and the bridge function `execute_tool` is split into its
sequential phases (lookup / register / send, then await-timeout, then
result formatting).  `tokio::sync::oneshot` channels are modelled by numeric
slots: `receivers` lists the slots whose receiving half is still awaited and
`delivered` records the value each receiver obtained.
-/

set_option maxHeartbeats 1000000

namespace BrowserBridge

/-! ## JSON values (`serde_json::Value`) -/

inductive Json where
  | null
  | bool (b : Bool)
  | num (n : Int)
  | str (s : String)
  | arr (xs : List Json)
  | obj (kvs : List (String × Json))

/-- serde_json string escaping for one character. -/
def escapeChar (c : Char) : String :=
  if c = '"' then "\\\""
  else if c = '\\' then "\\\\"
  else if c = '\x08' then "\\b"
  else if c = '\x0c' then "\\f"
  else if c = '\n' then "\\n"
  else if c = '\r' then "\\r"
  else if c = '\t' then "\\t"
  else if c.toNat < 32 then
    let hexDigit : Nat → Char := fun n =>
      if n < 10 then Char.ofNat ('0'.toNat + n) else Char.ofNat ('a'.toNat + n - 10)
    "\\u" ++ String.mk [hexDigit ((c.toNat / 4096) % 16), hexDigit ((c.toNat / 256) % 16),
      hexDigit ((c.toNat / 16) % 16), hexDigit (c.toNat % 16)]
  else String.singleton c

def escapeString (s : String) : String :=
  String.join (s.data.map escapeChar)

mutual

/-- Compact rendering of a JSON value, as `serde_json::to_string` emits it. -/
def Json.render : Json → String
  | .null => "null"
  | .bool true => "true"
  | .bool false => "false"
  | .num n => toString n
  | .str s => "\"" ++ escapeString s ++ "\""
  | .arr xs => "[" ++ Json.renderList xs ++ "]"
  | .obj kvs => "\x7b" ++ Json.renderObj kvs ++ "\x7d"

def Json.renderList : List Json → String
  | [] => ""
  | [x] => x.render
  | x :: y :: xs => x.render ++ "," ++ Json.renderList (y :: xs)

def Json.renderObj : List (String × Json) → String
  | [] => ""
  | [(k, v)] => "\"" ++ escapeString k ++ "\":" ++ v.render
  | (k, v) :: kv :: kvs =>
      "\"" ++ escapeString k ++ "\":" ++ v.render ++ "," ++ Json.renderObj (kv :: kvs)

end

/-! ## Wire protocol model (`backend/src/models/ws.rs`) -/

/-- `ActionCommand` (internally tagged enum).  `ref_id : Int` abstracts the
Rust `i32`; the codec checks the `i32`/`usize` ranges where serde would. -/
inductive ActionCommand where
  | NavigateTo (url : String)
  | ClickElement (ref_id : Int)
  | TypeText (ref_id : Int) (text : String)
  | ScrollTo (x y : Int)
  | GetPageContent (max_length : Option Nat)
  | GetInteractiveElements (limit : Option Nat)

/-- `ActionResult` struct. -/
structure ActionResult where
  request_id : String
  success : Bool
  error : Option String
  data : Option Json

/-- `WsMessage` (adjacently tagged: `#[serde(tag = "type", content = "data")]`). -/
inductive WsMessage where
  | Ping
  | Pong
  | SessionInit (session_id : String)
  | SessionUpdate (url : String) (title : Option String)
  | ActionRequest (request_id : String) (command : ActionCommand)
  | ActionResult (result : ActionResult)
  | Unknown

def encodeOptStr : Option String → Json
  | none => .null
  | some s => .str s

def encodeOptNat : Option Nat → Json
  | none => .null
  | some n => .num n

def encodeOptData : Option Json → Json
  | none => .null
  | some v => v

/-- Serialization of `ActionCommand`: tag field first, then the variant's
fields in declaration order, with `ref_id` renamed to `ref`. -/
def encode_action_command : ActionCommand → Json
  | .NavigateTo url =>
      .obj [("type", .str "navigate_to"), ("url", .str url)]
  | .ClickElement ref_id =>
      .obj [("type", .str "click_element"), ("ref", .num ref_id)]
  | .TypeText ref_id text =>
      .obj [("type", .str "type_text"), ("ref", .num ref_id), ("text", .str text)]
  | .ScrollTo x y =>
      .obj [("type", .str "scroll_to"), ("x", .num x), ("y", .num y)]
  | .GetPageContent max_length =>
      .obj [("type", .str "get_page_content"), ("max_length", encodeOptNat max_length)]
  | .GetInteractiveElements limit =>
      .obj [("type", .str "get_interactive_elements"), ("limit", encodeOptNat limit)]

def encode_action_result (r : ActionResult) : Json :=
  .obj [("request_id", .str r.request_id), ("success", .bool r.success),
        ("error", encodeOptStr r.error), ("data", encodeOptData r.data)]

/-- Serialization of `WsMessage`: `type` discriminant plus a `data` payload
for the non-unit variants, with the mixed casing of the Rust declaration. -/
def encode_ws_message : WsMessage → Json
  | .Ping => .obj [("type", .str "Ping")]
  | .Pong => .obj [("type", .str "Pong")]
  | .SessionInit session_id =>
      .obj [("type", .str "session_init"),
            ("data", .obj [("session_id", .str session_id)])]
  | .SessionUpdate url title =>
      .obj [("type", .str "SessionUpdate"),
            ("data", .obj [("url", .str url), ("title", encodeOptStr title)])]
  | .ActionRequest request_id command =>
      .obj [("type", .str "action_request"),
            ("data", .obj [("request_id", .str request_id),
                           ("command", encode_action_command command)])]
  | .ActionResult r =>
      .obj [("type", .str "ActionResult"), ("data", encode_action_result r)]
  | .Unknown => .obj [("type", .str "Unknown")]

/-- First value bound to key `k` in a JSON object body. -/
def jlookup (kvs : List (String × Json)) (k : String) : Option Json :=
  (kvs.find? (fun p => p.1 == k)).map (·.2)

def decodeString : Json → Except String String
  | .str s => .ok s
  | _ => .error "invalid type: expected a string"

def decodeBool : Json → Except String Bool
  | .bool b => .ok b
  | _ => .error "invalid type: expected a boolean"

/-- Deserializing into `i32` checks the range. -/
def decodeI32 : Json → Except String Int
  | .num n => if -2147483648 ≤ n ∧ n ≤ 2147483647 then .ok n
              else .error "invalid value: integer out of range of i32"
  | _ => .error "invalid type: expected an integer"

/-- Deserializing into `usize` (64-bit) checks the range. -/
def decodeUsize : Json → Except String Nat
  | .num n => if 0 ≤ n ∧ n ≤ 18446744073709551615 then .ok n.toNat
              else .error "invalid value: integer out of range of usize"
  | _ => .error "invalid type: expected an integer"

/-- A required field of a struct or struct variant. -/
def decodeField (kvs : List (String × Json)) (k : String)
    (f : Json → Except String α) : Except String α :=
  match jlookup kvs k with
  | none => .error ("missing field " ++ k)
  | some v => f v

/-- An `Option<T>` field: missing or `null` is `None`. -/
def decodeOptField (kvs : List (String × Json)) (k : String)
    (f : Json → Except String α) : Except String (Option α) :=
  match jlookup kvs k with
  | none => .ok none
  | some .null => .ok none
  | some v => (f v).map some

/-- An `Option<serde_json::Value>` field: missing or `null` is `None`,
anything else is kept verbatim. -/
def decodeDataField (kvs : List (String × Json)) (k : String) : Option Json :=
  match jlookup kvs k with
  | none => none
  | some .null => none
  | some v => some v

def decode_action_command : Json → Except String ActionCommand
  | .obj kvs =>
    (match jlookup kvs "type" with
     | some (.str t) =>
        if t = "navigate_to" then
          (decodeField kvs "url" decodeString).map ActionCommand.NavigateTo
        else if t = "click_element" then
          (decodeField kvs "ref" decodeI32).map ActionCommand.ClickElement
        else if t = "type_text" then do
          let r ← decodeField kvs "ref" decodeI32
          let tx ← decodeField kvs "text" decodeString
          .ok (.TypeText r tx)
        else if t = "scroll_to" then do
          let x ← decodeField kvs "x" decodeI32
          let y ← decodeField kvs "y" decodeI32
          .ok (.ScrollTo x y)
        else if t = "get_page_content" then
          (decodeOptField kvs "max_length" decodeUsize).map ActionCommand.GetPageContent
        else if t = "get_interactive_elements" then
          (decodeOptField kvs "limit" decodeUsize).map ActionCommand.GetInteractiveElements
        else .error ("unknown variant " ++ t)
     | some _ => .error "invalid type: tag is not a string"
     | none => .error "missing field type")
  | _ => .error "invalid type: expected an object"

def decode_action_result : Json → Except String ActionResult
  | .obj kvs => do
      let request_id ← decodeField kvs "request_id" decodeString
      let success ← decodeField kvs "success" decodeBool
      let error ← decodeOptField kvs "error" decodeString
      .ok ⟨request_id, success, error, decodeDataField kvs "data"⟩
  | _ => .error "invalid type: expected an object"

/-- Payload of a unit variant of an adjacently tagged enum: the `data` key
may be absent or `null`. -/
def decodeUnitVariant (kvs : List (String × Json)) (m : WsMessage) :
    Except String WsMessage :=
  match jlookup kvs "data" with
  | none => .ok m
  | some .null => .ok m
  | some _ => .error "invalid type: unit variant with non-null data"

/-- Payload of a data-carrying variant: the `data` key is required. -/
def decodeDataVariant (kvs : List (String × Json))
    (f : Json → Except String WsMessage) : Except String WsMessage :=
  match jlookup kvs "data" with
  | none => .error "missing field data"
  | some v => f v

/-- Deserialization of `WsMessage`.  An unrecognized `type` tag maps to the
`#[serde(other)]` variant `Unknown`. -/
def decode_ws_message : Json → Except String WsMessage
  | .obj kvs =>
    (match jlookup kvs "type" with
     | some (.str t) =>
        if t = "Ping" then decodeUnitVariant kvs .Ping
        else if t = "Pong" then decodeUnitVariant kvs .Pong
        else if t = "session_init" then
          decodeDataVariant kvs fun d =>
            match d with
            | .obj dk => (decodeField dk "session_id" decodeString).map WsMessage.SessionInit
            | _ => .error "invalid type: expected an object"
        else if t = "SessionUpdate" then
          decodeDataVariant kvs fun d =>
            match d with
            | .obj dk => do
                let url ← decodeField dk "url" decodeString
                let title ← decodeOptField dk "title" decodeString
                .ok (.SessionUpdate url title)
            | _ => .error "invalid type: expected an object"
        else if t = "action_request" then
          decodeDataVariant kvs fun d =>
            match d with
            | .obj dk => do
                let request_id ← decodeField dk "request_id" decodeString
                let command ← decodeField dk "command" decode_action_command
                .ok (.ActionRequest request_id command)
            | _ => .error "invalid type: expected an object"
        else if t = "ActionResult" then
          decodeDataVariant kvs fun d => (decode_action_result d).map WsMessage.ActionResult
        else .ok .Unknown
     | some _ => .error "invalid type: tag is not a string"
     | none => .error "missing field type")
  | _ => .error "invalid type: expected an object"

/-- The `i32` range constraint satisfied by every `ref`/`x`/`y` the Rust
program can hold. -/
def i32Ok (n : Int) : Prop := -2147483648 ≤ n ∧ n ≤ 2147483647

/-- The `usize` range constraint. -/
def usizeOk (n : Nat) : Prop := n ≤ 18446744073709551615

/-- Values representable by the Rust types of the command fields. -/
def commandWf : ActionCommand → Prop
  | .NavigateTo _ => True
  | .ClickElement r => i32Ok r
  | .TypeText r _ => i32Ok r
  | .ScrollTo x y => i32Ok x ∧ i32Ok y
  | .GetPageContent ml => ∀ n ∈ ml, usizeOk n
  | .GetInteractiveElements l => ∀ n ∈ l, usizeOk n

/-- `Option<serde_json::Value>` cannot distinguish `Some(Null)` from `None`
on the wire, and `Some(Null)` is never produced by deserialization. -/
def resultWf (r : ActionResult) : Prop := r.data ≠ some .null

def messageWf : WsMessage → Prop
  | .ActionRequest _ c => commandWf c
  | .ActionResult r => resultWf r
  | _ => True

/-- The six `type` tags the deserializer recognizes. -/
def knownTags : List String :=
  ["Ping", "Pong", "session_init", "SessionUpdate", "action_request", "ActionResult"]

/-! ## Runtime state (`backend/src/state.rs`)

`AppState.active_connections : HashMap<String, UnboundedSender<WsMessage>>`
and `AppState.pending_actions : HashMap<String, oneshot::Sender<ActionResult>>`
become association lists keyed by strings.  A `HashMap` holds at most one
entry per key, so insertion and removal touch every binding of the key.

Channels are modelled by numeric identifiers:
* an mpsc sender is the id of its channel; `sinks` maps each channel whose
  receiving (writer-task) half is alive to the queue of messages sent so far —
  `UnboundedSender::send` fails exactly when the receiver is gone;
* a oneshot sender is the id (`slot`) of its channel; `receivers` lists the
  slots whose receiving half is still awaited, and `delivered` records the
  value a receiver obtained (a oneshot delivers at most one value).
-/

def lookupEntry (m : List (String × α)) (k : String) : Option α :=
  (m.find? (fun p => p.1 == k)).map (·.2)

def insertEntry (m : List (String × α)) (k : String) (v : α) : List (String × α) :=
  (k, v) :: m.filter (fun p => !(p.1 == k))

def removeEntry (m : List (String × α)) (k : String) : List (String × α) :=
  m.filter (fun p => !(p.1 == k))

structure World where
  /-- `active_connections`: session id → mpsc sender (channel id). -/
  connections : List (String × Nat)
  /-- Alive mpsc channels (receiver held by the writer task) with their queues. -/
  sinks : List (Nat × List WsMessage)
  /-- `pending_actions`: request id → oneshot sender (slot). -/
  pending : List (String × Nat)
  /-- Oneshot slots whose receiving half is still awaited. -/
  receivers : List Nat
  /-- Values received through oneshot channels, keyed by slot. -/
  delivered : List (Nat × ActionResult)

/-- `AppState::register_connection`. -/
def register_connection (w : World) (session_id : String) (sender : Nat) : World :=
  { w with connections := insertEntry w.connections session_id sender }

/-- `AppState::unregister_connection`. -/
def unregister_connection (w : World) (session_id : String) : World :=
  { w with connections := removeEntry w.connections session_id }

/-- `AppState::get_connection`. -/
def get_connection (w : World) (session_id : String) : Option Nat :=
  lookupEntry w.connections session_id

/-- `AppState::register_pending_action`. -/
def register_pending_action (w : World) (request_id : String) (sender : Nat) : World :=
  { w with pending := insertEntry w.pending request_id sender }

/-- `AppState::complete_pending_action`: remove the entry; if one was there,
send the result through its oneshot sender (`send` succeeds exactly when the
receiver is still alive, and consumes it). -/
def complete_pending_action (w : World) (request_id : String)
    (result : ActionResult) : World × Bool :=
  match lookupEntry w.pending request_id with
  | some slot =>
      let w1 := { w with pending := removeEntry w.pending request_id }
      if slot ∈ w.receivers then
        ({ w1 with receivers := w1.receivers.erase slot,
                   delivered := (slot, result) :: w1.delivered }, true)
      else (w1, false)
  | none => (w, false)

/-- `UnboundedSender::send`: enqueue if the channel is alive, else fail. -/
def sendWs (w : World) (sink : Nat) (msg : WsMessage) : Option World :=
  match w.sinks.find? (fun p => p.1 == sink) with
  | some _ =>
      some { w with
        sinks := w.sinks.map fun p =>
          if p.1 == sink then (p.1, p.2 ++ [msg]) else p }
  | none => none

/-! ## Socket loop fragments (`backend/src/routes.rs`) -/

/-- The `Ok(WsMessage::ActionResult(res))` arm of the reader loop in
`handle_socket` (lines 152–160): complete the pending action keyed by the
result's own `request_id`; the returned flag is only logged. -/
def handle_action_result (w : World) (res : ActionResult) : World :=
  (complete_pending_action w res.request_id res).1

/-- The reader loop processing a batch of inbound `action_result` frames in
arrival order. -/
def processResults (w : World) (msgs : List ActionResult) : World :=
  msgs.foldl handle_action_result w

/-- The cleanup tail of `handle_socket` (lines 172–175): `send_task.abort()`
drops the writer task (and with it the mpsc receiver), then
`unregister_connection(session_id)`. -/
def socket_cleanup (w : World) (session_id : String) (sink : Nat) : World :=
  unregister_connection
    { w with sinks := w.sinks.filter (fun p => !(p.1 == sink)) } session_id

/-! ## Tool bridge (`backend/src/handler/agent_handler.rs`) -/

/-- Outcome of the synchronous prefix of `execute_tool` (steps 1–3: lookup the
connection, register the pending action, send the `action_request`). -/
inductive ToolStart where
  /-- An early `Err(_)` return; carries the state at the point of return. -/
  | failure (w : World) (err : String)
  /-- The call reached the await on `rx_result` (step 4). -/
  | inFlight (w : World) (slot : Nat)

/-- Steps 1–3 of `execute_tool`.  `request_id` stands for the fresh
`Uuid::new_v4()` and `slot` for the fresh oneshot channel.  The pending
action is registered before the send, and a failed send returns an error
without touching the just-registered entry. -/
def execute_tool_start (w : World) (session_id : String) (command : ActionCommand)
    (request_id : String) (slot : Nat) : ToolStart :=
  match get_connection w session_id with
  | none => .failure w "No active WebSocket connection for this session"
  | some tx =>
      let w1 := register_pending_action
        { w with receivers := slot :: w.receivers } request_id slot
      match sendWs w1 tx (.ActionRequest request_id command) with
      | some w2 => .inFlight w2 slot
      | none => .failure w1 "Failed to send WebSocket message: channel closed"

/-- The timeout seconds of step 4 (`Duration::from_secs(30)`). -/
def toolTimeoutSecs : Nat := 30

/-- The timeout branch of step 4: `timeout(…)` elapses, the call returns the
timeout error by `?`, and the only state change is that the oneshot receiver
`rx_result` is dropped — the `pending_actions` entry is left in place. -/
def execute_tool_timeout (w : World) (slot : Nat) : World × String :=
  ({ w with receivers := w.receivers.erase slot },
   "Tool execution timed out after 30 seconds")

/-- A crude rendering of Rust's `{:?}` for the optional data payload; the
claims never inspect its contents. -/
def debugData : Option Json → String
  | none => "None"
  | some v => "Some(" ++ v.render ++ ")"

/-- Step 5 of `execute_tool`: turn the received `ActionResult` into the
tool's return value. -/
def execute_tool_finish (result : ActionResult) : Except String String :=
  if result.success then .ok ("Success. Data: " ++ debugData result.data)
  else .error ("Error: " ++ (result.error.map (fun e => "Some(\"" ++ e ++ "\")")).getD "None")

/-- ASCII lowercasing of the URL's characters, as `str::to_lowercase` acts on
the ASCII prefixes the URL filter compares against. -/
def urlToLowercase (url : String) : List Char :=
  url.data.map Char.toLower

/-- The URL validation at the top of `WsNavigateTool::call`
(`url.to_lowercase()` followed by three `starts_with` tests). -/
def navigate_url_forbidden (url : String) : Bool :=
  let url_lower := urlToLowercase url
  "chrome://".data.isPrefixOf url_lower || "about:".data.isPrefixOf url_lower
    || "file://".data.isPrefixOf url_lower

/-- `WsNavigateTool::call` up to the await: validate the URL, then run
`execute_tool` with `ActionCommand::NavigateTo`. -/
def ws_navigate_call (w : World) (session_id url request_id : String)
    (slot : Nat) : ToolStart :=
  if navigate_url_forbidden url then
    .failure w
      "Navigation to system pages (chrome://, about://, file://) is not allowed"
  else execute_tool_start w session_id (.NavigateTo url) request_id slot

/-! ## Image data-URL parsing (`backend-rig/src/llm/provider.rs`) -/

inductive ImageMediaType where
  | PNG
  | JPEG
  | WEBP
deriving DecidableEq, Repr

def pngDataUrl : List Char := "data:image/png;base64,".data
def jpegDataUrl : List Char := "data:image/jpeg;base64,".data
def webpDataUrl : List Char := "data:image/webp;base64,".data

/-- `str::strip_prefix` on character lists. -/
def stripDataUrl (p l : List Char) : Option (List Char) :=
  if p.isPrefixOf l then some (l.drop p.length) else none

/-- `img_data.find(',')` followed by the slice `[comma_pos + 1..]`. -/
def afterFirstComma : List Char → Option (List Char)
  | [] => none
  | c :: cs => if c = ',' then some cs else afterFirstComma cs

/-- `parse_image_data`, on the character list of the input string. -/
def parse_image_data (img_data : List Char) : ImageMediaType × List Char :=
  match stripDataUrl pngDataUrl img_data with
  | some stripped => (.PNG, stripped)
  | none =>
    match stripDataUrl jpegDataUrl img_data with
    | some stripped => (.JPEG, stripped)
    | none =>
      match stripDataUrl webpDataUrl img_data with
      | some stripped => (.WEBP, stripped)
      | none =>
        match afterFirstComma img_data with
        | some rest => (.JPEG, rest)
        | none => (.JPEG, img_data)

/-! ## Page-content truncation (`backend/src/handler/agent_handler.rs` 289–302)

`content.len()` is the UTF-8 byte length and `&content[..8000]` slices the
first 8000 *bytes*, panicking when byte 8000 is not a character boundary.
The slice is modelled on character lists: `takeBytes n l` is `some` of the
characters spanning the first `n` bytes when byte `n` is a boundary within
the list, and `none` (the panic) otherwise. -/

def byteLen (l : List Char) : Nat := (l.map Char.utf8Size).sum

def takeBytes : Nat → List Char → Option (List Char)
  | 0, _ => some []
  | _ + 1, [] => none
  | n + 1, c :: cs =>
      if c.utf8Size ≤ n + 1 then (takeBytes (n + 1 - c.utf8Size) cs).map (c :: ·)
      else none
termination_by n _ => n
decreasing_by
  have := Char.utf8Size_pos c
  omega

/-- The string appended after the sliced prefix in
`format!("{}...\n[Content truncated]", &content[..8000])`. -/
def truncationMarker : List Char := "...\n[Content truncated]".data

/-- The `truncated` binding of `run_agent` for a non-empty `page_content`:
keep the content when at most 8000 bytes, otherwise append the marker to the
first 8000 bytes; `none` models the byte-slice panic. -/
def truncate_page_content (content : List Char) : Option (List Char) :=
  if byteLen content > 8000 then
    (takeBytes 8000 content).map (fun pre => pre ++ truncationMarker)
  else some content

/-! ## Concrete fixtures used by witnesses and counterexamples -/

def emptyWorld : World := ⟨[], [], [], [], []⟩

/-- Two pending round-trips `A ↦ slot 1`, `B ↦ slot 2`, both awaited. -/
def twoPendingWorld : World := ⟨[], [], [("A", 1), ("B", 2)], [1, 2], []⟩

def resultForA : ActionResult := ⟨"A", true, none, none⟩

def resultForB : ActionResult := ⟨"B", false, some "boom", none⟩

/-- Replies arriving reversed, with a duplicate of `B`'s reply at the end. -/
def reversedReplies : List ActionResult := [resultForB, resultForA, resultForB]

/-- One live session `S` on channel 5 with an empty outbound queue. -/
def liveSessionWorld : World := ⟨[("S", 5)], [(5, [])], [], [], []⟩

/-- The state after `execute_tool` has registered `R ↦ slot 7` and sent the
`action_request` on channel 5 from `liveSessionWorld`. -/
def inFlightWorld : World :=
  ⟨[("S", 5)], [(5, [.ActionRequest "R" (.NavigateTo "https://x")])],
   [("R", 7)], [7], []⟩

/-- Session `S` still registered on channel 5, but the writer task (and with
it the channel receiver) is gone. -/
def deadSinkWorld : World := ⟨[("S", 5)], [], [], [], []⟩

/-- The state after the failed send from `deadSinkWorld`: the pending entry
was registered and nothing removed it. -/
def deadSinkFailedWorld : World := ⟨[("S", 5)], [], [("R", 7)], [7], []⟩

/-- 4001 two-byte characters: 4001 characters but 8002 UTF-8 bytes. -/
def fourThousandOneWide : List Char := List.replicate 4001 'é'

/-- One ASCII character followed by 4001 two-byte characters: 8003 bytes,
with byte 8000 falling in the middle of the character spanning bytes
7999–8001. -/
def midCharBoundaryContent : List Char := 'a' :: List.replicate 4001 'é'

/-- 8000 one-byte characters. -/
def eightThousandAscii : List Char := List.replicate 8000 'a'

end BrowserBridge

/-! # Theorems -/

namespace BrowserBridge

/-! ## Association-list registry lemmas -/

theorem lookupEntry_some_mem {m : List (String × α)} {k : String} {v : α}
    (h : lookupEntry m k = some v) : (k, v) ∈ m := by
  unfold lookupEntry at h
  cases hf : m.find? (fun p => p.1 == k) with
  | none => rw [hf] at h; simp at h
  | some p =>
      rw [hf] at h
      simp only [Option.map_some'] at h
      have hmem := List.mem_of_find?_eq_some hf
      have hpred := List.find?_some hf
      obtain ⟨a, b⟩ := p
      simp only [beq_iff_eq] at hpred
      simp only at h
      obtain rfl := hpred
      obtain rfl := Option.some.inj h
      exact hmem

theorem lookupEntry_insertEntry_self (m : List (String × α)) (k : String) (v : α) :
    lookupEntry (insertEntry m k v) k = some v := by
  simp [lookupEntry, insertEntry, List.find?]

theorem find?_removeEntry_self (m : List (String × α)) (k : String) :
    (removeEntry m k).find? (fun p => p.1 == k) = none := by
  rw [List.find?_eq_none]
  intro x hx
  have := List.of_mem_filter hx
  simpa using this

theorem lookupEntry_removeEntry_self (m : List (String × α)) (k : String) :
    lookupEntry (removeEntry m k) k = none := by
  unfold lookupEntry
  rw [find?_removeEntry_self]
  rfl

theorem removeEntry_subset (m : List (String × α)) (k : String) :
    removeEntry m k ⊆ m :=
  List.filter_subset' m

theorem removeEntry_eq_of_lookup_none {m : List (String × α)} {k : String}
    (h : lookupEntry m k = none) : removeEntry m k = m := by
  unfold lookupEntry at h
  have hf : m.find? (fun p => p.1 == k) = none := by
    cases hf : m.find? (fun p => p.1 == k) with
    | none => rfl
    | some p => rw [hf] at h; simp at h
  rw [List.find?_eq_none] at hf
  unfold removeEntry
  apply List.filter_eq_self.mpr
  intro a ha
  simpa using hf a ha

theorem insertEntry_length_of_fresh {m : List (String × α)} {k : String}
    (h : lookupEntry m k = none) (v : α) :
    (insertEntry m k v).length = m.length + 1 := by
  have : insertEntry m k v = (k, v) :: removeEntry m k := rfl
  rw [this, removeEntry_eq_of_lookup_none h, List.length_cons]

/-- C4, part used everywhere: a successful lookup names an entry of the map. -/
theorem complete_pending_action_of_found {w : World} {request_id : String}
    {slot : Nat} (res : ActionResult)
    (hfind : lookupEntry w.pending request_id = some slot)
    (halive : slot ∈ w.receivers) :
    complete_pending_action w request_id res =
      ({ w with pending := removeEntry w.pending request_id,
                receivers := w.receivers.erase slot,
                delivered := (slot, res) :: w.delivered }, true) := by
  simp only [complete_pending_action, hfind]
  rw [if_pos halive]

/-- **C4.** `complete(request_id, result)`: when the id is present and its
call is still awaiting, the entry is removed, the sink resolved with the
result, and `true` returned; when the id is unknown, the state is untouched
and `false` returned.  Hence a second `action_result` with the same
`request_id` is ignored and the first resolver is never invoked twice. -/
theorem complete_pending_action_one_shot (w : World) (request_id : String)
    (slot : Nat) (res res2 : ActionResult)
    (hfind : lookupEntry w.pending request_id = some slot)
    (halive : slot ∈ w.receivers) :
    (complete_pending_action w request_id res).2 = true ∧
    lookupEntry (complete_pending_action w request_id res).1.pending request_id = none ∧
    (slot, res) ∈ (complete_pending_action w request_id res).1.delivered ∧
    complete_pending_action (complete_pending_action w request_id res).1 request_id res2 =
      ((complete_pending_action w request_id res).1, false) ∧
    (∀ rid2, lookupEntry w.pending rid2 = none →
      complete_pending_action w rid2 res = (w, false)) := by
  rw [complete_pending_action_of_found res hfind halive]
  refine ⟨rfl, ?_, ?_, ?_, ?_⟩
  · exact lookupEntry_removeEntry_self w.pending request_id
  · exact List.mem_cons_self _ _
  · unfold complete_pending_action
    rw [show lookupEntry
      ({ w with pending := removeEntry w.pending request_id,
                receivers := w.receivers.erase slot,
                delivered := (slot, res) :: w.delivered } : World).pending request_id =
        none from lookupEntry_removeEntry_self w.pending request_id]
  · intro rid2 h2
    unfold complete_pending_action
    rw [h2]

/-- Witness for C4 at `twoPendingWorld`. -/
theorem complete_pending_action_one_shot_witness :
    lookupEntry twoPendingWorld.pending "A" = some 1 ∧
    (1 : Nat) ∈ twoPendingWorld.receivers ∧
    (complete_pending_action twoPendingWorld "A" resultForA).2 = true ∧
    (1, resultForA) ∈ (complete_pending_action twoPendingWorld "A" resultForA).1.delivered := by
  have h := complete_pending_action_one_shot twoPendingWorld "A" 1 resultForA resultForB
    rfl (by decide)
  exact ⟨rfl, by decide, h.1, h.2.2.1⟩

/-- **C7.** The cleanup tail of the socket loop removes the session from the
session registry — a subsequent `get_connection` returns `none` — and leaves
the pending-action registry (entries, awaited receivers, delivered values)
untouched. -/
theorem socket_cleanup_unregisters_session_only (w : World) (session_id : String)
    (sink : Nat) :
    get_connection (socket_cleanup w session_id sink) session_id = none ∧
    (socket_cleanup w session_id sink).pending = w.pending ∧
    (socket_cleanup w session_id sink).receivers = w.receivers ∧
    (socket_cleanup w session_id sink).delivered = w.delivered := by
  refine ⟨?_, rfl, rfl, rfl⟩
  exact lookupEntry_removeEntry_self _ session_id

/-! ## `execute_tool` phase lemmas -/

theorem sendWs_some_inv {w : World} {sink : Nat} {msg : WsMessage} {w2 : World}
    (h : sendWs w sink msg = some w2) :
    w2.pending = w.pending ∧ w2.connections = w.connections ∧
    w2.receivers = w.receivers ∧ w2.delivered = w.delivered := by
  unfold sendWs at h
  cases hf : w.sinks.find? (fun p => p.1 == sink) with
  | none => rw [hf] at h; simp at h
  | some p =>
      rw [hf] at h
      obtain rfl := Option.some.inj h
      exact ⟨rfl, rfl, rfl, rfl⟩

/-- Inverting a successful start of `execute_tool`: the pending entry was
registered (before the send) and nothing else of the registries changed. -/
theorem execute_tool_start_inFlight_inv {w w1 : World} {session_id request_id : String}
    {command : ActionCommand} {slot slot' : Nat}
    (h : execute_tool_start w session_id command request_id slot = .inFlight w1 slot') :
    slot' = slot ∧
    w1.pending = insertEntry w.pending request_id slot ∧
    w1.connections = w.connections ∧
    w1.receivers = slot :: w.receivers ∧
    w1.delivered = w.delivered := by
  unfold execute_tool_start at h
  cases hc : get_connection w session_id with
  | none => rw [hc] at h; simp at h
  | some tx =>
      rw [hc] at h
      simp only at h
      cases hs : sendWs (register_pending_action
          { w with receivers := slot :: w.receivers } request_id slot) tx
          (.ActionRequest request_id command) with
      | none => rw [hs] at h; simp at h
      | some w2 =>
          rw [hs] at h
          obtain ⟨rfl, rfl⟩ : w2 = w1 ∧ slot = slot' := by
            cases h; exact ⟨rfl, rfl⟩
          obtain ⟨hp, hc2, hr, hd⟩ := sendWs_some_inv hs
          exact ⟨rfl, hp, hc2, hr, hd⟩

/-- Counterexample to C2 as stated: from `liveSessionWorld` (empty pending
registry), a call registers `R ↦ 7` and then times out; the timeout path
returns the timeout error but the `pending_actions` entry for `R` is still
there, so the registry does not return to its pre-call size. -/
theorem execute_tool_timeout_keeps_entry_cex :
    execute_tool_start liveSessionWorld "S" (.NavigateTo "https://x") "R" 7 =
      .inFlight inFlightWorld 7 ∧
    (execute_tool_timeout inFlightWorld 7).2 = "Tool execution timed out after 30 seconds" ∧
    lookupEntry (execute_tool_timeout inFlightWorld 7).1.pending "R" = some 7 ∧
    (execute_tool_timeout inFlightWorld 7).1.pending.length = 1 ∧
    liveSessionWorld.pending.length = 0 := by
  exact ⟨rfl, rfl, rfl, rfl, rfl⟩

/-- **C2 (amended).** A bridge call whose reply never arrives fails after the
30-second timeout with the "Tool execution timed out after 30 seconds" error,
but on that timeout path the entry registered under the call's `request_id`
is *not* removed from the pending-action registry: only the oneshot receiver
is dropped, and the registry stays one entry larger than its pre-call size
(for a fresh `request_id`) until a late reply removes the entry. -/
theorem execute_tool_timeout_behavior (w w1 : World) (session_id request_id : String)
    (command : ActionCommand) (slot : Nat)
    (hstart : execute_tool_start w session_id command request_id slot = .inFlight w1 slot)
    (hfresh : lookupEntry w.pending request_id = none) :
    toolTimeoutSecs = 30 ∧
    (execute_tool_timeout w1 slot).2 = "Tool execution timed out after 30 seconds" ∧
    (execute_tool_timeout w1 slot).1.pending = w1.pending ∧
    lookupEntry (execute_tool_timeout w1 slot).1.pending request_id = some slot ∧
    (execute_tool_timeout w1 slot).1.pending.length = w.pending.length + 1 := by
  obtain ⟨-, hp, -, -, -⟩ := execute_tool_start_inFlight_inv hstart
  refine ⟨rfl, rfl, rfl, ?_, ?_⟩
  · show lookupEntry w1.pending request_id = some slot
    rw [hp]
    exact lookupEntry_insertEntry_self _ _ _
  · show w1.pending.length = w.pending.length + 1
    rw [hp]
    exact insertEntry_length_of_fresh hfresh slot

/-- Witness for C2 (amended) at `liveSessionWorld`. -/
theorem execute_tool_timeout_behavior_witness :
    lookupEntry liveSessionWorld.pending "R" = none ∧
    (execute_tool_timeout inFlightWorld 7).1.pending.length =
      liveSessionWorld.pending.length + 1 :=
  ⟨rfl, (execute_tool_timeout_behavior liveSessionWorld inFlightWorld "S" "R"
    (.NavigateTo "https://x") 7 rfl rfl).2.2.2.2⟩

/-- Counterexample to C3 as stated: from `deadSinkWorld` (session registered,
writer task gone) the send fails and `execute_tool` returns an error — but it
does not complete the pending entry: `R ↦ 7` is still registered and nothing
was delivered. -/
theorem send_failure_keeps_entry_cex :
    execute_tool_start deadSinkWorld "S" (.NavigateTo "https://x") "R" 7 =
      .failure deadSinkFailedWorld "Failed to send WebSocket message: channel closed" ∧
    lookupEntry deadSinkFailedWorld.pending "R" = some 7 ∧
    deadSinkFailedWorld.delivered = [] := by
  exact ⟨rfl, rfl, rfl⟩

/-- **C3 (amended).** When sending the `action_request` fails (writer gone),
the call returns a send error to the caller, but it does not complete its
pending entry: the entry registered under the call's `request_id` stays in
the pending-action registry and nothing is delivered to any sink. -/
theorem execute_tool_send_failure_behavior (w : World) (session_id request_id : String)
    (command : ActionCommand) (slot tx : Nat)
    (hconn : get_connection w session_id = some tx)
    (hdead : w.sinks.find? (fun p => p.1 == tx) = none) :
    execute_tool_start w session_id command request_id slot =
      .failure (register_pending_action { w with receivers := slot :: w.receivers }
        request_id slot) "Failed to send WebSocket message: channel closed" ∧
    lookupEntry (register_pending_action { w with receivers := slot :: w.receivers }
      request_id slot).pending request_id = some slot ∧
    (register_pending_action { w with receivers := slot :: w.receivers }
      request_id slot).delivered = w.delivered := by
  refine ⟨?_, ?_, rfl⟩
  · unfold execute_tool_start
    rw [hconn]
    simp only
    have hsend : sendWs (register_pending_action
        { w with receivers := slot :: w.receivers } request_id slot) tx
        (.ActionRequest request_id command) = none := by
      unfold sendWs
      rw [show (register_pending_action { w with receivers := slot :: w.receivers }
        request_id slot).sinks = w.sinks from rfl, hdead]
    rw [hsend]
  · exact lookupEntry_insertEntry_self _ _ _

/-- Witness for C3 (amended) at `deadSinkWorld`. -/
theorem execute_tool_send_failure_behavior_witness :
    get_connection deadSinkWorld "S" = some 5 ∧
    execute_tool_start deadSinkWorld "S" (.NavigateTo "https://x") "R" 7 =
      .failure (register_pending_action
        { deadSinkWorld with receivers := 7 :: deadSinkWorld.receivers } "R" 7)
        "Failed to send WebSocket message: channel closed" :=
  ⟨rfl, (execute_tool_send_failure_behavior deadSinkWorld "S" "R"
    (.NavigateTo "https://x") 7 5 rfl rfl).1⟩

/-- **C6.** `WsNavigateTool::call` rejects every URL whose (ASCII) lowercase
form starts with `chrome://`, `about:` or `file://`, returning the rejection
error with the world untouched — no pending-action registration and no send
on any sink, whatever the session registry holds — and for every other URL
the validation passes, the call continuing into `execute_tool`. -/
theorem navigate_url_policy (w : World) (session_id url request_id : String)
    (slot : Nat) :
    (("chrome://".data <+: urlToLowercase url ∨
      "about:".data <+: urlToLowercase url ∨
      "file://".data <+: urlToLowercase url) ↔ navigate_url_forbidden url = true) ∧
    (navigate_url_forbidden url = true →
      ws_navigate_call w session_id url request_id slot =
        .failure w
          "Navigation to system pages (chrome://, about://, file://) is not allowed") ∧
    (navigate_url_forbidden url = false →
      ws_navigate_call w session_id url request_id slot =
        execute_tool_start w session_id (.NavigateTo url) request_id slot) := by
  refine ⟨?_, ?_, ?_⟩
  · unfold navigate_url_forbidden
    simp [Bool.or_eq_true, List.isPrefixOf_iff_prefix, or_assoc]
  · intro h
    unfold ws_navigate_call
    rw [h]
    rfl
  · intro h
    unfold ws_navigate_call
    rw [h]
    rfl

/-- Witness for C6: `CHROME://settings` is rejected with the world untouched,
`https://x` passes validation. -/
theorem navigate_url_policy_witness :
    navigate_url_forbidden "CHROME://settings" = true ∧
    ws_navigate_call emptyWorld "S" "CHROME://settings" "R" 7 =
      .failure emptyWorld
        "Navigation to system pages (chrome://, about://, file://) is not allowed" ∧
    navigate_url_forbidden "https://x" = false ∧
    ws_navigate_call liveSessionWorld "S" "https://x" "R" 7 =
      execute_tool_start liveSessionWorld "S" (.NavigateTo "https://x") "R" 7 :=
  ⟨by decide,
   (navigate_url_policy emptyWorld "S" "CHROME://settings" "R" 7).2.1 (by decide),
   by decide,
   (navigate_url_policy liveSessionWorld "S" "https://x" "R" 7).2.2 (by decide)⟩

/-! ## Reply correlation (C1) -/

/-- One inbound `action_result` preserves the correlation invariant: the
pending registry only shrinks within the initial registry `p0`, and every
delivered value reached the receiver registered under its own `request_id`. -/
theorem handle_action_result_inv {p0 : List (String × Nat)}
    (hs : (p0.map Prod.snd).Nodup) {msgs0 : List ActionResult}
    {w : World} {res : ActionResult} (hres : res ∈ msgs0)
    (hp : w.pending ⊆ p0)
    (hd : ∀ e ∈ w.delivered,
      (∀ rid, (rid, e.1) ∈ p0 → e.2.request_id = rid) ∧ e.2 ∈ msgs0) :
    (handle_action_result w res).pending ⊆ p0 ∧
    ∀ e ∈ (handle_action_result w res).delivered,
      (∀ rid, (rid, e.1) ∈ p0 → e.2.request_id = rid) ∧ e.2 ∈ msgs0 := by
  unfold handle_action_result complete_pending_action
  split
  case _ slot heq =>
    split
    case _ hrec =>
      constructor
      · intro x hx
        exact hp (removeEntry_subset _ _ hx)
      · intro e he
        rcases List.mem_cons.mp he with rfl | he2
        · refine ⟨?_, hres⟩
          intro rid hrid
          have hmem : (res.request_id, slot) ∈ p0 := hp (lookupEntry_some_mem heq)
          have := List.inj_on_of_nodup_map hs hrid hmem rfl
          exact (congrArg Prod.fst this).symm
        · exact hd e he2
    case _ hrec =>
      exact ⟨fun x hx => hp (removeEntry_subset _ _ hx), hd⟩
  case _ heq =>
    exact ⟨hp, hd⟩

/-- The invariant of `handle_action_result_inv`, folded over a whole batch of
inbound replies. -/
theorem processResults_inv {p0 : List (String × Nat)}
    (hs : (p0.map Prod.snd).Nodup) {msgs0 : List ActionResult} :
    ∀ (msgs : List ActionResult) (w : World),
      (∀ m ∈ msgs, m ∈ msgs0) →
      w.pending ⊆ p0 →
      (∀ e ∈ w.delivered,
        (∀ rid, (rid, e.1) ∈ p0 → e.2.request_id = rid) ∧ e.2 ∈ msgs0) →
      (processResults w msgs).pending ⊆ p0 ∧
      ∀ e ∈ (processResults w msgs).delivered,
        (∀ rid, (rid, e.1) ∈ p0 → e.2.request_id = rid) ∧ e.2 ∈ msgs0 := by
  intro msgs
  induction msgs with
  | nil =>
      intro w _ hp hd
      exact ⟨hp, hd⟩
  | cons res rest ih =>
      intro w hm hp hd
      have hstep := handle_action_result_inv hs (hm res (List.mem_cons_self _ _)) hp hd
      exact ih (handle_action_result w res)
        (fun m hm' => hm m (List.mem_cons_of_mem _ hm')) hstep.1 hstep.2

/-- **C1.** For a pending registry with pairwise-distinct `request_id`s
(and distinct oneshot slots — each call creates a fresh channel), whatever
the arrival order of the `action_result` replies (in-order, reversed, with
duplicates), a call whose receiver obtains a reply obtains exactly a reply
whose `request_id` is the id that call registered, and that reply is one of
the arrived messages — never a payload registered under a different id. -/
theorem execute_tool_correlation_by_request_id (w0 : World)
    (msgs : List ActionResult)
    (hkeys : (w0.pending.map Prod.fst).Nodup)
    (hslots : (w0.pending.map Prod.snd).Nodup)
    (hdel : w0.delivered = [])
    (request_id : String) (slot : Nat) (hin : (request_id, slot) ∈ w0.pending)
    (r : ActionResult) (hr : (slot, r) ∈ (processResults w0 msgs).delivered) :
    r.request_id = request_id ∧ r ∈ msgs := by
  have hinv := processResults_inv hslots msgs w0 (fun m hm => hm)
    (fun x hx => hx) (by rw [hdel]; intro e he; cases he)
  have he := hinv.2 (slot, r) hr
  exact ⟨he.1 request_id hin, he.2⟩

/-- Witness for C1: two pending calls `A ↦ 1`, `B ↦ 2`; replies arrive
reversed with a duplicate; the call on slot 1 received exactly `A`'s payload. -/
theorem execute_tool_correlation_witness :
    ("A", 1) ∈ twoPendingWorld.pending ∧
    (1, resultForA) ∈ (processResults twoPendingWorld reversedReplies).delivered ∧
    resultForA.request_id = "A" ∧ resultForA ∈ reversedReplies := by
  have hr : (1, resultForA) ∈ (processResults twoPendingWorld reversedReplies).delivered := by
    show (1, resultForA) ∈ [(1, resultForA), (2, resultForB)]
    exact List.mem_cons_self _ _
  have h := execute_tool_correlation_by_request_id twoPendingWorld reversedReplies
    (by decide) (by decide) rfl "A" 1 (by decide) resultForA hr
  exact ⟨by decide, hr, h.1, h.2⟩

/-! ## Image data-URL parsing (C8) -/

theorem stripDataUrl_append (p rest : List Char) :
    stripDataUrl p (p ++ rest) = some rest := by
  unfold stripDataUrl
  rw [if_pos (List.isPrefixOf_iff_prefix.mpr (List.prefix_append p rest))]
  rw [List.drop_left]

theorem stripDataUrl_eq_none {p l : List Char} (h : ¬ p <+: l) :
    stripDataUrl p l = none := by
  unfold stripDataUrl
  rw [if_neg (fun hc => h (List.isPrefixOf_iff_prefix.mp hc))]

theorem afterFirstComma_append {before : List Char} (h : ',' ∉ before)
    (after : List Char) :
    afterFirstComma (before ++ ',' :: after) = some after := by
  induction before with
  | nil => simp [afterFirstComma]
  | cons c cs ih =>
      have hc : ¬ c = ',' := fun hc => h (by rw [hc]; exact List.mem_cons_self _ _)
      simp only [List.cons_append, afterFirstComma, if_neg hc]
      exact ih (fun hm => h (List.mem_cons_of_mem _ hm))

theorem afterFirstComma_eq_none {l : List Char} (h : ',' ∉ l) :
    afterFirstComma l = none := by
  induction l with
  | nil => rfl
  | cons c cs ih =>
      have hc : ¬ c = ',' := fun hc => h (by rw [hc]; exact List.mem_cons_self _ _)
      simp only [afterFirstComma, if_neg hc]
      exact ih (fun hm => h (List.mem_cons_of_mem _ hm))

theorem not_prefix_of_comma_notMem {p l : List Char} (hp : ',' ∈ p)
    (h : ',' ∉ l) : ¬ p <+: l :=
  fun hpre => h (hpre.subset hp)

/-- **C8.** `parse_image_data`: each of the three recognized data-URL
prefixes yields its media type together with the payload after the prefix;
any other comma-bearing input yields JPEG with the portion after the first
comma; an input without a comma yields JPEG with the whole input. -/
theorem parse_image_data_spec :
    (∀ rest : List Char,
      parse_image_data (pngDataUrl ++ rest) = (.PNG, rest) ∧
      parse_image_data (jpegDataUrl ++ rest) = (.JPEG, rest) ∧
      parse_image_data (webpDataUrl ++ rest) = (.WEBP, rest)) ∧
    (∀ before after : List Char, ',' ∉ before →
      ¬ pngDataUrl <+: (before ++ ',' :: after) →
      ¬ jpegDataUrl <+: (before ++ ',' :: after) →
      ¬ webpDataUrl <+: (before ++ ',' :: after) →
      parse_image_data (before ++ ',' :: after) = (.JPEG, after)) ∧
    (∀ l : List Char, ',' ∉ l → parse_image_data l = (.JPEG, l)) := by
  refine ⟨?_, ?_, ?_⟩
  · intro rest
    refine ⟨?_, ?_, ?_⟩
    · simp [parse_image_data, stripDataUrl_append]
    · rw [parse_image_data,
        show stripDataUrl pngDataUrl (jpegDataUrl ++ rest) = none by
          unfold stripDataUrl
          rw [show pngDataUrl.isPrefixOf (jpegDataUrl ++ rest) = false from rfl]
          rfl,
        stripDataUrl_append]
    · rw [parse_image_data,
        show stripDataUrl pngDataUrl (webpDataUrl ++ rest) = none by
          unfold stripDataUrl
          rw [show pngDataUrl.isPrefixOf (webpDataUrl ++ rest) = false from rfl]
          rfl,
        show stripDataUrl jpegDataUrl (webpDataUrl ++ rest) = none by
          unfold stripDataUrl
          rw [show jpegDataUrl.isPrefixOf (webpDataUrl ++ rest) = false from rfl]
          rfl,
        stripDataUrl_append]
  · intro before after hcomma h1 h2 h3
    rw [parse_image_data, stripDataUrl_eq_none h1, stripDataUrl_eq_none h2,
      stripDataUrl_eq_none h3, afterFirstComma_append hcomma]
  · intro l hcomma
    rw [parse_image_data,
      stripDataUrl_eq_none (not_prefix_of_comma_notMem (by decide) hcomma),
      stripDataUrl_eq_none (not_prefix_of_comma_notMem (by decide) hcomma),
      stripDataUrl_eq_none (not_prefix_of_comma_notMem (by decide) hcomma),
      afterFirstComma_eq_none hcomma]

/-- Witness for C8: a PNG data URL, an unknown comma-bearing input, and an
input without any comma. -/
theorem parse_image_data_witness :
    parse_image_data (pngDataUrl ++ "PAYLOAD".data) = (.PNG, "PAYLOAD".data) ∧
    parse_image_data ('x' :: ',' :: ['y']) = (.JPEG, ['y']) ∧
    parse_image_data "abc".data = (.JPEG, "abc".data) :=
  ⟨(parse_image_data_spec.1 "PAYLOAD".data).1,
   parse_image_data_spec.2.1 ['x'] ['y'] (by decide)
     (fun hp => by have := hp.length_le; revert this; decide)
     (fun hp => by have := hp.length_le; revert this; decide)
     (fun hp => by have := hp.length_le; revert this; decide),
   parse_image_data_spec.2.2 "abc".data (by decide)⟩

/-! ## Page-content truncation (C9, C10) -/

theorem byteLen_cons (c : Char) (cs : List Char) :
    byteLen (c :: cs) = c.utf8Size + byteLen cs := by
  simp [byteLen]

theorem byteLen_append (l1 l2 : List Char) :
    byteLen (l1 ++ l2) = byteLen l1 + byteLen l2 := by
  simp [byteLen]

theorem byteLen_replicate (n : Nat) (c : Char) :
    byteLen (List.replicate n c) = n * c.utf8Size := by
  induction n with
  | zero => simp [byteLen]
  | succ m ih =>
      rw [List.replicate_succ, byteLen_cons, ih]
      ring

theorem byteLen_pos_of_ne_nil {l : List Char} (h : l ≠ []) : 1 ≤ byteLen l := by
  cases l with
  | nil => exact absurd rfl h
  | cons c cs =>
      rw [byteLen_cons]
      have := Char.utf8Size_pos c
      omega

/-- Slicing at exactly the byte length of a leading block returns the block:
byte 8000 on a character boundary. -/
theorem takeBytes_byteLen_append (pre rest : List Char) :
    takeBytes (byteLen pre) (pre ++ rest) = some pre := by
  induction pre with
  | nil => simp [takeBytes, byteLen]
  | cons c cs ih =>
      have hpos := Char.utf8Size_pos c
      have h1 : byteLen (c :: cs) = (c.utf8Size + byteLen cs - 1) + 1 := by
        rw [byteLen_cons]; omega
      rw [List.cons_append, h1]
      simp only [takeBytes]
      rw [if_pos (by omega)]
      have h2 : c.utf8Size + byteLen cs - 1 + 1 - c.utf8Size = byteLen cs := by omega
      rw [h2, ih]
      rfl

/-- An even number of bytes of a block of two-byte characters is a prefix of
whole characters. -/
theorem takeBytes_two_mul_replicate (k : Nat) :
    ∀ n, k ≤ n →
      takeBytes (2 * k) (List.replicate n 'é') = some (List.replicate k 'é') := by
  induction k with
  | zero => intro n _; simp [takeBytes]
  | succ m ih =>
      intro n hn
      cases n with
      | zero => omega
      | succ n' =>
          have h1 : 2 * (m + 1) = (2 * m + 1) + 1 := by ring
          rw [h1, List.replicate_succ]
          simp only [takeBytes]
          rw [show ('é'.utf8Size) = 2 from rfl, if_pos (by omega)]
          have h2 : 2 * m + 1 + 1 - 2 = 2 * m := by omega
          rw [h2, ih n' (by omega)]
          rw [List.replicate_succ]
          rfl

/-- An odd byte index always falls in the middle of some two-byte character
(or past the end): the slice panics. -/
theorem takeBytes_odd_replicate (k : Nat) :
    ∀ n, takeBytes (2 * k + 1) (List.replicate n 'é') = none := by
  induction k with
  | zero =>
      intro n
      cases n with
      | zero => simp [takeBytes]
      | succ m =>
          rw [List.replicate_succ]
          simp only [takeBytes]
          rw [show ('é'.utf8Size) = 2 from rfl, if_neg (by omega)]
  | succ m ih =>
      intro n
      cases n with
      | zero => simp [takeBytes]
      | succ n' =>
          have h1 : 2 * (m + 1) + 1 = (2 * m + 2) + 1 := by ring
          rw [h1, List.replicate_succ]
          simp only [takeBytes]
          rw [show ('é'.utf8Size) = 2 from rfl, if_pos (by omega)]
          have h2 : 2 * m + 2 + 1 - 2 = 2 * m + 1 := by omega
          rw [h2, ih n']
          rfl

/-- Counterexample to C9 as stated: 4001 two-byte characters are only 4001
characters (≤ 8000), yet the code — which counts *bytes* (8002 > 8000) —
truncates instead of appending the content verbatim. -/
theorem truncation_character_count_cex :
    fourThousandOneWide.length ≤ 8000 ∧
    truncate_page_content fourThousandOneWide ≠ some fourThousandOneWide := by
  constructor
  · rw [show fourThousandOneWide = List.replicate 4001 'é' from rfl,
      List.length_replicate]
    omega
  · have hb : byteLen fourThousandOneWide = 8002 := by
      rw [show fourThousandOneWide = List.replicate 4001 'é' from rfl,
        byteLen_replicate, show ('é'.utf8Size) = 2 from rfl]
    unfold truncate_page_content
    rw [if_pos (show byteLen fourThousandOneWide > 8000 by omega)]
    rw [show fourThousandOneWide = List.replicate 4001 'é' from rfl,
      show (8000 : Nat) = 2 * 4000 from rfl,
      takeBytes_two_mul_replicate 4000 4001 (by omega)]
    intro hEq
    have hlist := Option.some.inj hEq
    have hlen := congrArg List.length hlist
    rw [List.length_append, List.length_replicate, List.length_replicate,
      show truncationMarker.length = 23 from rfl] at hlen
    omega

/-- **C9 (amended).** The truncation threshold counts UTF-8 *bytes*, not
characters, and the appended marker is `"...\n[Content truncated]"`: content
of at most 8000 bytes is appended verbatim; content splitting as an
8000-byte block followed by a non-empty rest is truncated to that block
followed by the marker (provided byte 8000 is a character boundary, which
the split expresses). -/
theorem truncate_page_content_bytes (content pre rest : List Char) :
    (byteLen content ≤ 8000 → truncate_page_content content = some content) ∧
    (content = pre ++ rest → byteLen pre = 8000 → rest ≠ [] →
      truncate_page_content content = some (pre ++ truncationMarker)) := by
  constructor
  · intro h
    unfold truncate_page_content
    rw [if_neg (by omega)]
  · intro hc hpre hrest
    subst hc
    have h1 : byteLen (pre ++ rest) = 8000 + byteLen rest := by
      rw [byteLen_append, hpre]
    have h2 := byteLen_pos_of_ne_nil hrest
    unfold truncate_page_content
    rw [if_pos (by omega), ← hpre, takeBytes_byteLen_append]
    rfl

/-- Witness for C9 (amended): a one-byte content kept verbatim, and an
8001-byte content truncated to its first 8000 bytes plus the marker. -/
theorem truncate_page_content_bytes_witness :
    byteLen ['a'] ≤ 8000 ∧
    truncate_page_content ['a'] = some ['a'] ∧
    byteLen eightThousandAscii = 8000 ∧
    truncate_page_content (eightThousandAscii ++ ['b']) =
      some (eightThousandAscii ++ truncationMarker) := by
  have h8 : byteLen eightThousandAscii = 8000 := by
    rw [show eightThousandAscii = List.replicate 8000 'a' from rfl,
      byteLen_replicate, show ('a'.utf8Size) = 1 from rfl]
  refine ⟨by decide, ?_, h8, ?_⟩
  · exact (truncate_page_content_bytes ['a'] [] []).1 (by decide)
  · exact (truncate_page_content_bytes (eightThousandAscii ++ ['b'])
      eightThousandAscii ['b']).2 rfl h8 (by decide)

/-- **C10.** The truncation slice is *not* total: on content whose 8000th
byte falls inside a multi-byte character (here one ASCII character followed
by 4001 two-byte characters, 8003 bytes in all), `&content[..8000]` hits a
non-boundary index and the preamble construction panics — modelled as the
slice returning `none`. -/
theorem truncation_panics_on_multibyte_boundary :
    8000 < byteLen midCharBoundaryContent ∧
    truncate_page_content midCharBoundaryContent = none := by
  have hb : byteLen midCharBoundaryContent = 8003 := by
    rw [show midCharBoundaryContent = 'a' :: List.replicate 4001 'é' from rfl,
      byteLen_cons, byteLen_replicate, show ('a'.utf8Size) = 1 from rfl,
      show ('é'.utf8Size) = 2 from rfl]
  refine ⟨by omega, ?_⟩
  unfold truncate_page_content
  rw [if_pos (by omega)]
  rw [show midCharBoundaryContent = 'a' :: List.replicate 4001 'é' from rfl,
    show (8000 : Nat) = 7999 + 1 from rfl]
  simp only [takeBytes]
  rw [show ('a'.utf8Size) = 1 from rfl, if_pos (by omega),
    show (7999 + 1 - 1 : Nat) = 2 * 3999 + 1 from rfl,
    takeBytes_odd_replicate 3999 4001]
  rfl

/-! ## Wire codec (C5) -/

theorem decodeI32_ok (n : Int) (h : i32Ok n) : decodeI32 (.num n) = .ok n := by
  simp only [decodeI32]
  rw [if_pos (show -2147483648 ≤ n ∧ n ≤ 2147483647 from h)]

theorem decodeUsize_ok (n : Nat) (h : usizeOk n) : decodeUsize (.num n) = .ok n := by
  simp only [decodeUsize]
  rw [if_pos (show 0 ≤ (n : Int) ∧ (n : Int) ≤ 18446744073709551615 from
    ⟨Int.ofNat_nonneg n, by exact_mod_cast h⟩)]
  simp

/-- **C5.** The serde codec of `WsMessage`: every representable envelope
round-trips through encode-then-decode unchanged; the §6 examples render to
exactly the documented wire strings, with the mixed tag casing (`Ping`,
`session_init`, `SessionUpdate`, `action_request`, `ActionResult`) and with
the internal `ref_id` field on the wire as `ref`; and an envelope whose
top-level `type` tag is none of the six known tags decodes to `Unknown`. -/
theorem ws_message_codec_round_trip :
    (∀ m : WsMessage, messageWf m →
      decode_ws_message (encode_ws_message m) = .ok m) ∧
    ((encode_ws_message .Ping).render = "\x7b\"type\":\"Ping\"\x7d" ∧
     (encode_ws_message .Pong).render = "\x7b\"type\":\"Pong\"\x7d" ∧
     (encode_ws_message (.SessionInit "<uuid>")).render =
       "\x7b\"type\":\"session_init\",\"data\":\x7b\"session_id\":\"<uuid>\"\x7d\x7d" ∧
     (encode_ws_message (.SessionUpdate "..." (some "..."))).render =
       "\x7b\"type\":\"SessionUpdate\",\"data\":\x7b\"url\":\"...\",\"title\":\"...\"\x7d\x7d" ∧
     (encode_ws_message (.ActionRequest "<uuid>" (.NavigateTo "https://x"))).render =
       "\x7b\"type\":\"action_request\",\"data\":\x7b\"request_id\":\"<uuid>\",\"command\":\x7b\"type\":\"navigate_to\",\"url\":\"https://x\"\x7d\x7d\x7d" ∧
     (encode_ws_message (.ActionRequest "<uuid>" (.ClickElement 42))).render =
       "\x7b\"type\":\"action_request\",\"data\":\x7b\"request_id\":\"<uuid>\",\"command\":\x7b\"type\":\"click_element\",\"ref\":42\x7d\x7d\x7d" ∧
     (encode_ws_message (.ActionRequest "<uuid>" (.TypeText 42 "hi"))).render =
       "\x7b\"type\":\"action_request\",\"data\":\x7b\"request_id\":\"<uuid>\",\"command\":\x7b\"type\":\"type_text\",\"ref\":42,\"text\":\"hi\"\x7d\x7d\x7d" ∧
     (encode_ws_message (.ActionRequest "<uuid>" (.ScrollTo 0 500))).render =
       "\x7b\"type\":\"action_request\",\"data\":\x7b\"request_id\":\"<uuid>\",\"command\":\x7b\"type\":\"scroll_to\",\"x\":0,\"y\":500\x7d\x7d\x7d" ∧
     (encode_ws_message (.ActionResult ⟨"<uuid>", true, none, none⟩)).render =
       "\x7b\"type\":\"ActionResult\",\"data\":\x7b\"request_id\":\"<uuid>\",\"success\":true,\"error\":null,\"data\":null\x7d\x7d") ∧
    (∀ tag : String, tag ∉ knownTags →
      decode_ws_message (.obj [("type", .str tag)]) = .ok .Unknown) := by
  refine ⟨?_, ?_, ?_⟩
  · intro m hwf
    cases m with
    | Ping =>
        simp [encode_ws_message, decode_ws_message, jlookup, decodeUnitVariant]
    | Pong =>
        simp [encode_ws_message, decode_ws_message, jlookup, decodeUnitVariant]
    | SessionInit sid =>
        simp [encode_ws_message, decode_ws_message, jlookup, decodeDataVariant,
          decodeField, decodeString, Except.map]
    | SessionUpdate url title =>
        cases title <;>
        simp [encode_ws_message, decode_ws_message, jlookup, decodeDataVariant,
          decodeField, decodeOptField, decodeString, encodeOptStr, Except.map,
          Except.bind, bind, pure]
    | ActionRequest rid cmd =>
        cases cmd with
        | NavigateTo url =>
            simp [encode_ws_message, decode_ws_message, encode_action_command,
              decode_action_command, jlookup, decodeDataVariant, decodeField,
              decodeString, Except.map, Except.bind, bind, pure]
        | ClickElement r =>
            have hr : i32Ok r := hwf
            simp [encode_ws_message, decode_ws_message, encode_action_command,
              decode_action_command, jlookup, decodeDataVariant, decodeField,
              decodeString, decodeI32_ok r hr, Except.map, Except.bind, bind, pure]
        | TypeText r t =>
            have hr : i32Ok r := hwf
            simp [encode_ws_message, decode_ws_message, encode_action_command,
              decode_action_command, jlookup, decodeDataVariant, decodeField,
              decodeString, decodeI32_ok r hr, Except.map, Except.bind, bind, pure]
        | ScrollTo x y =>
            obtain ⟨hx, hy⟩ : i32Ok x ∧ i32Ok y := hwf
            simp [encode_ws_message, decode_ws_message, encode_action_command,
              decode_action_command, jlookup, decodeDataVariant, decodeField,
              decodeString, decodeI32_ok x hx, decodeI32_ok y hy, Except.map,
              Except.bind, bind, pure]
        | GetPageContent ml =>
            cases ml with
            | none =>
                simp [encode_ws_message, decode_ws_message, encode_action_command,
                  decode_action_command, jlookup, decodeDataVariant, decodeField,
                  decodeString, encodeOptNat, decodeOptField, Except.map,
                  Except.bind, bind, pure]
            | some n =>
                have hn : usizeOk n := hwf n rfl
                simp [encode_ws_message, decode_ws_message, encode_action_command,
                  decode_action_command, jlookup, decodeDataVariant, decodeField,
                  decodeString, encodeOptNat, decodeOptField, decodeUsize_ok n hn,
                  Except.map, Except.bind, bind, pure]
        | GetInteractiveElements lim =>
            cases lim with
            | none =>
                simp [encode_ws_message, decode_ws_message, encode_action_command,
                  decode_action_command, jlookup, decodeDataVariant, decodeField,
                  decodeString, encodeOptNat, decodeOptField, Except.map,
                  Except.bind, bind, pure]
            | some n =>
                have hn : usizeOk n := hwf n rfl
                simp [encode_ws_message, decode_ws_message, encode_action_command,
                  decode_action_command, jlookup, decodeDataVariant, decodeField,
                  decodeString, encodeOptNat, decodeOptField, decodeUsize_ok n hn,
                  Except.map, Except.bind, bind, pure]
    | ActionResult r =>
        obtain ⟨rid, s, e, d⟩ := r
        cases e <;> rcases d with _ | v <;> (try cases v) <;>
        simp_all [encode_ws_message, decode_ws_message, jlookup, decodeDataVariant,
          decodeField, decodeString, decodeBool, decode_action_result,
          encode_action_result, encodeOptStr, encodeOptData, decodeOptField,
          decodeDataField, resultWf, messageWf, Except.map, Except.bind, bind, pure]
    | Unknown =>
        simp [encode_ws_message, decode_ws_message, jlookup, knownTags]
  · refine ⟨?_, ?_, ?_, ?_, ?_, ?_, ?_, ?_, ?_⟩ <;>
    · simp [encode_ws_message, encode_action_command, encode_action_result,
        encodeOptStr, encodeOptData, Json.render, Json.renderObj]
      try rfl
  · intro tag h
    have h' : ¬(tag = "Ping" ∨ tag = "Pong" ∨ tag = "session_init" ∨
        tag = "SessionUpdate" ∨ tag = "action_request" ∨ tag = "ActionResult") := by
      simpa [knownTags] using h
    push_neg at h'
    obtain ⟨h1, h2, h3, h4, h5, h6⟩ := h'
    simp [decode_ws_message, jlookup, h1, h2, h3, h4, h5, h6]

/-- Witness for C5: the click envelope round-trips, and an unrecognized tag
decodes to `Unknown`. -/
theorem ws_message_codec_round_trip_witness :
    messageWf (.ActionRequest "<uuid>" (.ClickElement 42)) ∧
    decode_ws_message (encode_ws_message (.ActionRequest "<uuid>" (.ClickElement 42))) =
      .ok (.ActionRequest "<uuid>" (.ClickElement 42)) ∧
    "mystery" ∉ knownTags ∧
    decode_ws_message (.obj [("type", .str "mystery")]) = .ok .Unknown := by
  have hwf : messageWf (.ActionRequest "<uuid>" (.ClickElement 42)) :=
    ⟨by decide, by decide⟩
  have htag : "mystery" ∉ knownTags := by decide
  exact ⟨hwf, ws_message_codec_round_trip.1 _ hwf, htag,
    ws_message_codec_round_trip.2.2 "mystery" htag⟩

end BrowserBridge
